import Mathlib

/-!
Shallow embedding of the session-coordination core of the rov-host
repository (files `src/slave/param_tuner.rs` and
`src/slave/firmware_update.rs`) together with proofs checking the
natural-language specification against it.

Modelling conventions:
* Rust machine integers (`i8`, `u16`, `u32`, `usize`, `u128`) are modelled
  as `Int`/`Nat`; where wrap-around matters (`u32::wrapping_add`) the
  reduction `% 2 ^ 32` is explicit.
* Rust floating point values (`f32`, `f64`) are modelled as `ℚ` (exact
  arithmetic); all values the claims mention (`-1.0`, `1.0`, `1/3`, …) are
  exactly representable.
* `HashMap<String, V>` is modelled as an association list
  `List (String × V)` with `mapLookup`/`mapInsert`; `VecDeque<f32>` as a
  `List ℚ` (`pop_front` = `tail`, `push_back` = append).
* External library calls (UTF-8 validation, serde JSON parsing, MD5) are
  abstracted as function parameters, since their code is not part of this
  repository; every branch of the repository's own code is translated.
* Fallible I/O (TCP reads/writes/flushes, file access) is modelled by an
  explicit environment recording, per operation, whether it succeeds.
-/

set_option autoImplicit false

namespace RovHost

/-! ### Association-list model of `HashMap<String, V>` -/

/-- Lookup in an association map (model of `HashMap::get`). -/
def mapLookup {α : Type} : List (String × α) → String → Option α
  | [], _ => none
  | e :: m, k => if e.1 = k then some e.2 else mapLookup m k

/-- Insert-or-replace in an association map (model of `HashMap::insert`). -/
def mapInsert {α : Type} : List (String × α) → String → α → List (String × α)
  | [], k, v => [(k, v)]
  | e :: m, k, v => if e.1 = k then (k, v) :: m else e :: mapInsert m k v

/-- Replace the element at an index, if present (model of the
`self.xs.get_mut(index)`-then-mutate pattern; out-of-range indices are a
no-op, like the `if let Some(_) = get_mut(index)` guards). -/
def modifyIdx {α : Type} (f : α → α) : Nat → List α → List α
  | _, [] => []
  | 0, a :: l => f a :: l
  | n + 1, a :: l => a :: modifyIdx f n l

/-! ### Data model of `param_tuner.rs` -/

/-- Field-for-field translation of `PropellerModel` (tracker fields and
GUI-only state omitted). -/
structure PropellerModel where
  key : String
  deadzone_lower : Int
  deadzone_upper : Int
  power_positive : ℚ
  power_negative : ℚ
  enabled : Bool
  reversed : Bool
deriving DecidableEq

/-- `PropellerModel::new`: the key is set, every other field takes its
`derivative(Default)` value (`0.75` for the powers, `enabled = true`). -/
def PropellerModel.new (key : String) : PropellerModel :=
  { key := key
    deadzone_lower := 0
    deadzone_upper := 0
    power_positive := 3 / 4
    power_negative := 3 / 4
    enabled := true
    reversed := false }

/-- Wire-side `Propeller` struct (the `set_propeller_parameters` entries). -/
structure Propeller where
  deadzone_lower : Int
  deadzone_upper : Int
  power_positive : ℚ
  power_negative : ℚ
  reversed : Bool
  enabled : Bool
deriving DecidableEq

/-- Field-for-field translation of `ControlLoopModel`. -/
structure ControlLoopModel where
  key : String
  p : ℚ
  i : ℚ
  d : ℚ
  feedbacks : List ℚ
deriving DecidableEq

/-- `ControlLoopModel::new`: key set, `p = i = d = 1.0`, empty history. -/
def ControlLoopModel.new (key : String) : ControlLoopModel :=
  { key := key, p := 1, i := 1, d := 1, feedbacks := [] }

/-- Wire-side `ControlLoop` struct (`p`/`i`/`d`). -/
structure ControlLoop where
  p : ℚ
  i : ℚ
  d : ℚ
deriving DecidableEq

/-- `ControlLoopModel::to_control_loop`. -/
def ControlLoopModel.to_control_loop (c : ControlLoopModel) : ControlLoop :=
  { p := c.p, i := c.i, d := c.d }

/-- `const DEFAULT_PROPELLERS`. -/
def DEFAULT_PROPELLERS : List String :=
  ["front_left", "front_right", "back_left", "back_right", "center_left", "center_right"]

/-- `const DEFAULT_CONTROL_LOOPS`. -/
def DEFAULT_CONTROL_LOOPS : List String :=
  ["depth_lock", "direction_lock"]

/-- `PropellerModel::vec_to_map` (collects models into a keyed map). -/
def propellersToMap (l : List PropellerModel) : List (String × Propeller) :=
  l.map fun m =>
    (m.key,
      { deadzone_lower := m.deadzone_lower
        deadzone_upper := m.deadzone_upper
        power_positive := m.power_positive
        power_negative := m.power_negative
        reversed := m.reversed
        enabled := m.enabled })

/-- `ControlLoopModel::vec_to_map`. -/
def controlLoopsToMap (l : List ControlLoopModel) : List (String × ControlLoop) :=
  l.map fun m => (m.key, m.to_control_loop)

/-- Translation of `SlaveParameterTunerModel`.  The `tcp_msg_sender`
option is modelled by whether a sender is present (`Bool`); commands a
`try_send` would enqueue are returned by `tunerUpdate` instead. -/
structure TunerModel where
  propeller_pwm_frequency_calibration : ℚ
  propellers : List PropellerModel
  control_loops : List ControlLoopModel
  tcp_msg_sender : Bool
  graph_view_point_num_limit : Nat
  stopped : Bool
deriving DecidableEq

/-- `SlaveParameterTunerModel::new`. -/
def tunerNew (graph_view_point_num_limit : Nat) : TunerModel :=
  { propeller_pwm_frequency_calibration := 0
    propellers := DEFAULT_PROPELLERS.map PropellerModel.new
    control_loops := DEFAULT_CONTROL_LOOPS.map ControlLoopModel.new
    tcp_msg_sender := false
    graph_view_point_num_limit := graph_view_point_num_limit
    stopped := false }

/-- The writer-directed commands, `enum SlaveParameterTunerTcpMsg`
(payload of `ConnectionLost` dropped: the `IOError` value is opaque). -/
inductive TcpCmd
  | UploadParameters (cal : ℚ) (props : List (String × Propeller))
      (cls : List (String × ControlLoop))
  | RequestParameters
  | SetDebugModeEnabled (enabled : Bool)
  | PreviewPropeller (key : String) (value : Int)
  | PreviewPropellers (values : List (String × Int))
  | PreviewControlLoop (key : String) (cl : ControlLoop)
  | PreviewControlLoops (values : List (String × ControlLoop))
  | ConnectionLost
  | Terminate
deriving DecidableEq

/-- The session messages, `enum SlaveParameterTunerMsg` (`StartDebug`
carries a `TcpStream` in the source; the stream handle is not data the
claims depend on).  The two received-frame messages carry the parsed
packet contents. -/
inductive TunerMsg
  | SetPropellerLowerDeadzone (index : Nat) (value : Int)
  | SetPropellerUpperDeadzone (index : Nat) (value : Int)
  | SetPropellerPowerPositive (index : Nat) (value : ℚ)
  | SetPropellerPowerNegative (index : Nat) (value : ℚ)
  | SetPropellerReversed (index : Nat) (value : Bool)
  | SetPropellerEnabled (index : Nat) (value : Bool)
  | SetP (index : Nat) (value : ℚ)
  | SetI (index : Nat) (value : ℚ)
  | SetD (index : Nat) (value : ℚ)
  | SetPropellerPwmFreqCalibration (value : ℚ)
  | ResetParameters
  | ApplyParameters
  | StartDebug
  | StopDebug
  | FeedbacksReceived (control_loops : List (String × ℚ))
  | ParametersReceived (cal : ℚ) (props : List (String × Propeller))
      (cls : List (String × ControlLoop))
deriving DecidableEq

/-- Translation of `SlaveParameterTunerModel::update`.  Returns the new
model state together with the list of commands the handler `try_send`s to
the writer queue (empty when `tcp_msg_sender` is `None`).  The GUI
tracker `reset()` calls have no model content.  The `for index in
0..len` loops of the two received-frame handlers mutate exactly the
element at each index from the frame entry at its own key, which is the
`List.map` below. -/
def tunerUpdate (s : TunerModel) : TunerMsg → TunerModel × List TcpCmd
  | .SetPropellerLowerDeadzone index value =>
    let props := modifyIdx
      (fun p => { p with
        deadzone_lower := value
        deadzone_upper := max p.deadzone_upper value }) index s.propellers
    let cmds := match props[index]?, s.tcp_msg_sender with
      | some p, true => [TcpCmd.PreviewPropeller p.key value]
      | _, _ => []
    ({ s with propellers := props }, cmds)
  | .SetPropellerUpperDeadzone index value =>
    let props := modifyIdx
      (fun p => { p with
        deadzone_upper := value
        deadzone_lower := min p.deadzone_lower value }) index s.propellers
    let cmds := match props[index]?, s.tcp_msg_sender with
      | some p, true => [TcpCmd.PreviewPropeller p.key value]
      | _, _ => []
    ({ s with propellers := props }, cmds)
  | .SetPropellerPowerPositive index value =>
    ({ s with propellers :=
        modifyIdx (fun p => { p with power_positive := value }) index s.propellers }, [])
  | .SetPropellerPowerNegative index value =>
    ({ s with propellers :=
        modifyIdx (fun p => { p with power_negative := value }) index s.propellers }, [])
  | .SetPropellerReversed index value =>
    ({ s with propellers :=
        modifyIdx (fun p => { p with reversed := value }) index s.propellers }, [])
  | .SetPropellerEnabled index value =>
    ({ s with propellers :=
        modifyIdx (fun p => { p with enabled := value }) index s.propellers }, [])
  | .SetP index value =>
    let cls := modifyIdx (fun c => { c with p := value }) index s.control_loops
    let cmds := match cls[index]?, s.tcp_msg_sender with
      | some c, true => [TcpCmd.PreviewControlLoop c.key c.to_control_loop]
      | _, _ => []
    ({ s with control_loops := cls }, cmds)
  | .SetI index value =>
    let cls := modifyIdx (fun c => { c with i := value }) index s.control_loops
    let cmds := match cls[index]?, s.tcp_msg_sender with
      | some c, true => [TcpCmd.PreviewControlLoop c.key c.to_control_loop]
      | _, _ => []
    ({ s with control_loops := cls }, cmds)
  | .SetD index value =>
    let cls := modifyIdx (fun c => { c with d := value }) index s.control_loops
    let cmds := match cls[index]?, s.tcp_msg_sender with
      | some c, true => [TcpCmd.PreviewControlLoop c.key c.to_control_loop]
      | _, _ => []
    ({ s with control_loops := cls }, cmds)
  | .SetPropellerPwmFreqCalibration value =>
    ({ s with propeller_pwm_frequency_calibration := value }, [])
  | .ResetParameters =>
    (s, if s.tcp_msg_sender then [TcpCmd.RequestParameters] else [])
  | .ApplyParameters =>
    (s, if s.tcp_msg_sender then
      [TcpCmd.UploadParameters s.propeller_pwm_frequency_calibration
        (propellersToMap s.propellers) (controlLoopsToMap s.control_loops)]
    else [])
  | .StartDebug =>
    ({ s with tcp_msg_sender := true }, [TcpCmd.SetDebugModeEnabled true])
  | .StopDebug =>
    if s.tcp_msg_sender then
      ({ s with tcp_msg_sender := false, stopped := true },
        [TcpCmd.SetDebugModeEnabled false, TcpCmd.Terminate])
    else (s, [])
  | .FeedbacksReceived control_loops =>
    let limit := s.graph_view_point_num_limit
    ({ s with control_loops := s.control_loops.map fun c =>
        match mapLookup control_loops c.key with
        | some v =>
          { c with feedbacks :=
              (if c.feedbacks.length = limit then c.feedbacks.tail else c.feedbacks) ++ [v] }
        | none => c }, [])
  | .ParametersReceived cal props cls =>
    ({ s with
        propeller_pwm_frequency_calibration := cal
        propellers := s.propellers.map fun m =>
          match mapLookup props m.key with
          | some pr =>
            { m with
                deadzone_lower := min pr.deadzone_lower pr.deadzone_upper
                deadzone_upper := max pr.deadzone_upper pr.deadzone_lower
                power_positive := pr.power_positive
                power_negative := pr.power_negative
                reversed := pr.reversed
                enabled := pr.enabled }
          | none => m
        control_loops := s.control_loops.map fun c =>
          match mapLookup cls c.key with
          | some cl => { c with p := cl.p, i := cl.i, d := cl.d }
          | none => c }, [])

/-! ### The receive task of `parameter_tuner_handler` -/

/-- Parsed contents of a parameters frame. -/
structure ParamsPacket where
  cal : ℚ
  props : List (String × Propeller)
  cls : List (String × ControlLoop)
deriving DecidableEq

/-- Abstraction of the external decoding libraries the receive task
calls: `std::str::from_utf8` and the two `serde_json::from_str`
instantiations.  Their code is not part of this repository, so they are
parameters of the embedding. -/
structure Decoders where
  utf8 : List Nat → Option String
  parseFeedback : String → Option (List (String × ℚ))
  parseParams : String → Option ParamsPacket

/-- Outcome of processing one read chunk, before the loop reacts. -/
inductive RecvStep
  | skip
  | connectionLost
  | feedback (m : List (String × ℚ))
  | params (p : ParamsPacket)
  | protocolError
deriving DecidableEq

/-- The per-chunk body of the receive loop: take the bytes before the
first NUL (`buf.split(|x| x.eq(&0)).next()`), decode them as UTF-8
(`continue` on failure), treat an empty string as remote close, then try
the feedback packet shape first and the parameters shape second
(`or_else`); a string parsing as neither is the `eprintln` branch. -/
def receiveChunk (d : Decoders) (buf : List Nat) : RecvStep :=
  let seg := buf.takeWhile fun b => b != 0
  match d.utf8 seg with
  | none => .skip
  | some s =>
    if s = "" then .connectionLost
    else match d.parseFeedback s with
      | some m => .feedback m
      | none =>
        match d.parseParams s with
        | some p => .params p
        | none => .protocolError

/-- The receive loop over a schedule of reads (`none` = the read itself
returned an error).  Returns the `SlaveParameterTunerMsg` events sent to
the model and the commands sent to the writer queue; the loop `break`s
exactly after enqueuing `ConnectionLost`. -/
def receiveLoop (d : Decoders) : List (Option (List Nat)) → List TunerMsg × List TcpCmd
  | [] => ([], [])
  | none :: _ => ([], [TcpCmd.ConnectionLost])
  | some buf :: rest =>
    match receiveChunk d buf with
    | .skip => receiveLoop d rest
    | .connectionLost => ([], [TcpCmd.ConnectionLost])
    | .feedback m =>
      let r := receiveLoop d rest
      (TunerMsg.FeedbacksReceived m :: r.1, r.2)
    | .params p =>
      let r := receiveLoop d rest
      (TunerMsg.ParametersReceived p.cal p.props p.cls :: r.1, r.2)
    | .protocolError => receiveLoop d rest

/-! ### The preview coalescer and safety timer of `parameter_tuner_handler` -/

/-- The three mutex-guarded accumulators shared between the writer loop,
the preview coalescer and the safety timer. -/
structure SharedState where
  last_propeller_preview_timestamp : Option Nat
  preview_propellers_value : List (String × Int)
  preview_control_loops : List (String × ControlLoop)
deriving DecidableEq

/-- The `PreviewPropeller(name, value)` branch of the writer loop: insert
into the propeller preview map and stamp the current time. -/
def previewPropellerInsert (now : Nat) (key : String) (value : Int)
    (st : SharedState) : SharedState :=
  { st with
      preview_propellers_value := mapInsert st.preview_propellers_value key value
      last_propeller_preview_timestamp := some now }

/-- The `PreviewControlLoop(name, value)` branch of the writer loop. -/
def previewControlLoopInsert (key : String) (cl : ControlLoop)
    (st : SharedState) : SharedState :=
  { st with preview_control_loops := mapInsert st.preview_control_loops key cl }

/-- One iteration of `parameter_preview_task` (between two sleeps): if
the propeller preview map is non-empty, `mem::replace` it with an empty
map and enqueue one `PreviewPropellers` command carrying the old
contents; then the same, independently, for the control-loop map. -/
def coalescerTick (st : SharedState) : SharedState × List TcpCmd :=
  let (props, cmds₁) :=
    if st.preview_propellers_value.isEmpty then (st.preview_propellers_value, [])
    else ([], [TcpCmd.PreviewPropellers st.preview_propellers_value])
  let (cls, cmds₂) :=
    if st.preview_control_loops.isEmpty then (st.preview_control_loops, [])
    else ([], [TcpCmd.PreviewControlLoops st.preview_control_loops])
  ({ st with preview_propellers_value := props, preview_control_loops := cls },
    cmds₁ ++ cmds₂)

/-- `const PREVIEW_TIME_MILLIS`. -/
def PREVIEW_TIME_MILLIS : Nat := 1000

/-- The neutral-revert frame contents:
`DEFAULT_PROPELLERS.iter().map(|x| (x.to_string(), 0i8)).collect()`. -/
def neutralFrame : List (String × Int) :=
  DEFAULT_PROPELLERS.map fun k => (k, 0)

/-- One wake of `stop_propeller_preview_task` (between two sleeps): if
the timestamp is set and `current_millis() - millis >= PREVIEW_TIME_MILLIS`,
enqueue one neutral `PreviewPropellers` command and clear the timestamp;
otherwise do nothing.  `u128` subtraction is modelled as truncated `Nat`
subtraction (the timestamp is never in the future of the same clock). -/
def timerStep (now : Nat) (st : SharedState) : SharedState × List TcpCmd :=
  match st.last_propeller_preview_timestamp with
  | none => (st, [])
  | some millis =>
    if PREVIEW_TIME_MILLIS ≤ now - millis then
      ({ st with last_propeller_preview_timestamp := none },
        [TcpCmd.PreviewPropellers neutralFrame])
    else (st, [])

/-! ### The writer loop of `parameter_tuner_handler` (stream-error paths) -/

/-- Result of running one writer-loop command against a stream whose
successive operations (each `write_all`/`write`/`flush`, in program
order) succeed or fail as `ok` dictates, starting at operation index
`n`.  `Except.error ()` is the `?`-propagated `IOError` that makes
`parameter_tuner_handler` return `Err` and end the session; on success
the next operation index is returned.  The second write of the
`UploadParameters` branch (the save-request frame) is
`.unwrap_or_default()` in the source: the operation is attempted (the
index advances) but its failure is discarded. -/
def runTcpCmd (ok : Nat → Bool) (n : Nat) : TcpCmd → Except Unit Nat
  | .UploadParameters _ _ _ =>
    if ok n = false then .error () else          -- write_all(parameters json)?
    if ok (n + 1) = false then .error () else    -- flush()?
    -- write_all(save_parameters json).unwrap_or_default(): failure ignored
    if ok (n + 3) = false then .error () else    -- flush()?
    .ok (n + 4)
  | .RequestParameters =>
    if ok n = false then .error () else          -- write_all(load_parameters json)?
    if ok (n + 1) = false then .error () else    -- flush()?
    .ok (n + 2)
  | .SetDebugModeEnabled _ =>
    if ok n = false then .error () else          -- write_all(set_debug_mode json)?
    if ok (n + 1) = false then .error () else    -- flush()?
    .ok (n + 2)
  | .PreviewPropellers _ =>
    if ok n = false then .error () else          -- write_all(set_propeller_values json)?
    if ok (n + 1) = false then .error () else    -- flush()?
    .ok (n + 2)
  | .PreviewControlLoops _ =>
    if ok n = false then .error () else          -- write_all(set_control_loop json)?
    if ok (n + 1) = false then .error () else    -- flush()?
    .ok (n + 2)
  | .PreviewPropeller _ _ => .ok n               -- buffered only, no stream op
  | .PreviewControlLoop _ _ => .ok n             -- buffered only, no stream op
  | .ConnectionLost => .error ()                 -- returns Err(err)
  | .Terminate => .ok n                          -- cancels tasks, breaks the loop

/-! ### Data model of `firmware_update.rs` -/

/-- `SlaveFirmwarePacket`, the payload of the header frame. -/
structure FirmwarePacket where
  size : Nat
  compression : String
  md5 : String
deriving DecidableEq

/-- A successful write performed by the upload task on the TCP stream. -/
inductive UploadWrite
  | header (p : FirmwarePacket)
  | chunk (bytes : List Nat)
deriving DecidableEq

/-- `enum SlaveFirmwareUpdaterMsg` (`PathBuf` modelled as `String`). -/
inductive UpdaterMsg
  | StartUpload
  | NextStep
  | FirmwareFileSelected (path : String)
  | FirmwareUploadProgressUpdated (progress : ℚ)
  | FirmwareUploadFailed
deriving DecidableEq

/-- The state fields of `SlaveFirmwareUpdaterModel` (the `TcpStream`
handle itself carries no model content). -/
structure FirmwareUpdaterModel where
  current_page : Nat
  firmware_file_path : Option String
  firmware_uploading_progress : ℚ
deriving DecidableEq

/-- Environment of the upload task: `fs path` is `some bytes` iff
`File::open` + `read_to_end` succeed (so `none` covers a nonexistent or
unreadable path), `md5` abstracts the external digest, and the three
`Ok*` fields give the outcome of each stream operation of the task in
program order. -/
structure UploadEnv where
  fs : String → Option (List Nat)
  md5 : List Nat → String
  headerOk : Bool
  chunkOk : Nat → Bool
  flushOk : Bool

/-- `bytes.chunks(1024)` is `chunkSplit 1024 bytes`: split a list into
consecutive chunks of `n` elements, the last possibly shorter. -/
def chunkSplit {α : Type} (n : Nat) (l : List α) : List (List α) :=
  match l with
  | [] => []
  | a :: rest => (a :: rest.take (n - 1)) :: chunkSplit n (rest.drop (n - 1))
termination_by l.length
decreasing_by simp only [List.length_drop, List.length_cons]; omega

/-- Result of running the upload task: whether it returned `Ok`, the
writes that succeeded, and the messages it sent, in order. -/
structure UploadRun where
  ok : Bool
  writes : List UploadWrite
  msgs : List UpdaterMsg
deriving DecidableEq

/-- The `for (chunk_index, chunk) in chunks.enumerate()` loop: write each
chunk (`?` aborts on failure) and report progress `(chunk_index + 1) /
chunk_num` after each write. -/
def uploadChunkLoop (env : UploadEnv) (total : Nat) :
    List (List Nat) → Nat → UploadRun
  | [], _ => ⟨true, [], []⟩
  | c :: cs, i =>
    if env.chunkOk i then
      let r := uploadChunkLoop env total cs (i + 1)
      ⟨r.ok, .chunk c :: r.writes,
        .FirmwareUploadProgressUpdated (((i + 1 : Nat) : ℚ) / (total : ℚ)) :: r.msgs⟩
    else ⟨false, [], []⟩

/-- The spawned upload task of the `StartUpload` handler: open and read
the file, build the `{firmware_update: {size, compression: "none", md5}}`
header, `io::copy` it to the stream, then stream the 1024-byte chunks and
flush; a zero-chunk file reports progress `1.0` directly.  Every `?`
failure makes `ok = false`. -/
def runUploadTask (env : UploadEnv) (path : String) : UploadRun :=
  match env.fs path with
  | none => ⟨false, [], []⟩
  | some bytes =>
    let packet : FirmwarePacket := ⟨bytes.length, "none", env.md5 bytes⟩
    if env.headerOk then
      let cs := chunkSplit 1024 bytes
      let chunk_num := cs.length
      if 0 < chunk_num then
        let r := uploadChunkLoop env chunk_num cs 0
        if r.ok then
          ⟨env.flushOk, .header packet :: r.writes, r.msgs⟩
        else ⟨false, .header packet :: r.writes, r.msgs⟩
      else ⟨true, [.header packet], [.FirmwareUploadProgressUpdated 1]⟩
    else ⟨false, [], []⟩

/-- Translation of `SlaveFirmwareUpdaterModel::update`.  Returns the new
state, the messages sent to the component's own queue (in send order; for
`StartUpload` the synchronous `NextStep` is followed by the messages of
the spawned task and, when the task returned `Err`, by the
`FirmwareUploadFailed` the supervising wrapper task sends), and the
stream writes performed.  `current_page` is a `u32` under
`wrapping_add`. -/
def updaterUpdate (env : UploadEnv) (s : FirmwareUpdaterModel) :
    UpdaterMsg → FirmwareUpdaterModel × List UpdaterMsg × List UploadWrite
  | .NextStep =>
    ({ s with current_page := (s.current_page + 1) % 2 ^ 32 }, [], [])
  | .FirmwareFileSelected path =>
    ({ s with firmware_file_path := some path }, [], [])
  | .FirmwareUploadProgressUpdated progress =>
    ({ s with firmware_uploading_progress := progress },
      if 1 ≤ progress ∨ progress < 0 then [.NextStep] else [], [])
  | .FirmwareUploadFailed =>
    (s, [.FirmwareUploadProgressUpdated (-1)], [])
  | .StartUpload =>
    match s.firmware_file_path with
    | none => (s, [], [])
    | some path =>
      let r := runUploadTask env path
      (s, .NextStep :: (r.msgs ++ if r.ok then [] else [.FirmwareUploadFailed]),
        r.writes)

/-! ### Helper lemmas -/

theorem modifyIdx_getElem_self {α : Type} (f : α → α) :
    ∀ (i : Nat) (l : List α), (modifyIdx f i l)[i]? = l[i]?.map f
  | _, [] => by simp [modifyIdx]
  | 0, _ :: _ => by simp [modifyIdx]
  | n + 1, _ :: l => by
    simp only [modifyIdx, List.getElem?_cons_succ]
    exact modifyIdx_getElem_self f n l

theorem modifyIdx_getElem_ne {α : Type} (f : α → α) :
    ∀ (i j : Nat), i ≠ j → ∀ (l : List α), (modifyIdx f i l)[j]? = l[j]?
  | _, _, _, [] => by simp [modifyIdx]
  | 0, 0, h, _ :: _ => absurd rfl h
  | 0, _ + 1, _, _ :: _ => by simp [modifyIdx]
  | _ + 1, 0, _, _ :: _ => by simp [modifyIdx]
  | n + 1, m + 1, h, _ :: l => by
    simp only [modifyIdx, List.getElem?_cons_succ]
    exact modifyIdx_getElem_ne f n m (by omega) l

theorem map_modifyIdx {α β : Type} (k : α → β) (f : α → α) (h : ∀ a, k (f a) = k a) :
    ∀ (i : Nat) (l : List α), (modifyIdx f i l).map k = l.map k
  | _, [] => by simp [modifyIdx]
  | 0, a :: l => by simp [modifyIdx, h a]
  | n + 1, a :: l => by simp [modifyIdx, map_modifyIdx k f h n l]

theorem map_map_eq_map {α β : Type} (g : α → α) (k : α → β) (h : ∀ a, k (g a) = k a) :
    ∀ l : List α, (l.map g).map k = l.map k
  | [] => rfl
  | a :: l => by simp [h a, map_map_eq_map g k h l]

/-! ### C1 — deadzone edits keep `deadzone_lower ≤ deadzone_upper` -/

/-- C1: for every tuner state, propeller index and value, (a) a
lower-deadzone edit leaves the edited propeller with
`deadzone_lower ≤ deadzone_upper`, setting the lower bound to the value
and raising the upper bound to the value when it was below it; (b)
symmetrically for an upper-deadzone edit; (c) a received parameters frame
re-establishes the invariant on every propeller it covers by clamping. -/
theorem deadzone_edit_invariant (s : TunerModel) (i : Nat) (v : Int) :
    (∀ p q, s.propellers[i]? = some p →
      (tunerUpdate s (.SetPropellerLowerDeadzone i v)).1.propellers[i]? = some q →
      q.deadzone_lower ≤ q.deadzone_upper ∧ q.deadzone_lower = v ∧
      q.deadzone_upper = max p.deadzone_upper v ∧
      (p.deadzone_upper < v → q.deadzone_upper = v)) ∧
    (∀ p q, s.propellers[i]? = some p →
      (tunerUpdate s (.SetPropellerUpperDeadzone i v)).1.propellers[i]? = some q →
      q.deadzone_lower ≤ q.deadzone_upper ∧ q.deadzone_upper = v ∧
      q.deadzone_lower = min p.deadzone_lower v ∧
      (v < p.deadzone_lower → q.deadzone_lower = v)) ∧
    (∀ cal props cls p pr q, s.propellers[i]? = some p →
      mapLookup props p.key = some pr →
      (tunerUpdate s (.ParametersReceived cal props cls)).1.propellers[i]? = some q →
      q.deadzone_lower ≤ q.deadzone_upper ∧
      q.deadzone_lower = min pr.deadzone_lower pr.deadzone_upper ∧
      q.deadzone_upper = max pr.deadzone_upper pr.deadzone_lower) := by
  refine ⟨?_, ?_, ?_⟩
  · intro p q hp hq
    simp only [tunerUpdate, modifyIdx_getElem_self, hp, Option.map_some] at hq
    obtain rfl : _ = q := Option.some.inj hq
    refine ⟨le_max_right _ _, rfl, rfl, fun h => max_eq_right h.le⟩
  · intro p q hp hq
    simp only [tunerUpdate, modifyIdx_getElem_self, hp, Option.map_some] at hq
    obtain rfl : _ = q := Option.some.inj hq
    refine ⟨min_le_right _ _, rfl, rfl, fun h => min_eq_right h.le⟩
  · intro cal props cls p pr q hp hlook hq
    simp only [tunerUpdate, List.getElem?_map, hp, Option.map_some] at hq
    obtain rfl : _ = q := Option.some.inj hq
    simp only [hlook]
    exact ⟨min_le_max.trans_eq (max_comm _ _), True.intro, True.intro⟩

/-- Witness for C1 at a concrete input: the default model, propeller 0,
lower-deadzone edit to 5. -/
theorem deadzone_edit_invariant_witness :
    ∃ q, (tunerUpdate (tunerNew 10) (TunerMsg.SetPropellerLowerDeadzone 0 5)).1.propellers[0]? =
        some q ∧ q.deadzone_lower ≤ q.deadzone_upper ∧ q.deadzone_upper = 5 := by
  have h := (deadzone_edit_invariant (tunerNew 10) 0 5).1 (PropellerModel.new "front_left")
  cases hq : (tunerUpdate (tunerNew 10) (TunerMsg.SetPropellerLowerDeadzone 0 5)).1.propellers[0]? with
  | none => exact absurd hq (by decide)
  | some q =>
    obtain ⟨h₁, _, _, h₄⟩ := h q rfl hq
    exact ⟨q, rfl, h₁, h₄ (by decide)⟩

/-! ### C2 — the feedback history is a capacity-`N` FIFO -/

/-- Counterexample to C2 as stated: with
`graph_view_point_num_limit = 0` the eviction guard
`feedbacks.len() == limit` fires on the empty history, whose `pop_front`
evicts nothing, so pushing the sample leaves the history at length `1 >
N` — the history exceeds the capacity (and keeps growing on later
frames), refuting "the feedback history never holds more than the fixed
capacity N samples". -/
theorem feedback_capacity_counterexample :
    ((tunerUpdate
        { propeller_pwm_frequency_calibration := 0
          propellers := []
          control_loops := [ControlLoopModel.new "depth_lock"]
          tcp_msg_sender := false
          graph_view_point_num_limit := 0
          stopped := false }
        (TunerMsg.FeedbacksReceived [("depth_lock", 1)])).1.control_loops.map
      fun c => c.feedbacks.length) = [1] ∧ (0 : Nat) < 1 :=
  ⟨rfl, Nat.zero_lt_one⟩

/-- C2 (amended: the capacity `N = graph_view_point_num_limit` must be at
least 1; the code's `len == limit` guard makes a capacity-0 history grow
unboundedly): starting from a history of length at most `N`, a feedback
frame matching the loop's key appends the sample at the back, evicts the
front sample exactly when the history already has length `N` (keeping the
rest in FIFO order), and leaves the history at length at most `N`. -/
theorem feedback_history_bounded (s : TunerModel) (frame : List (String × ℚ))
    (i : Nat) (c : ControlLoopModel) (v : ℚ)
    (hN : 1 ≤ s.graph_view_point_num_limit)
    (hc : s.control_loops[i]? = some c)
    (hlen : c.feedbacks.length ≤ s.graph_view_point_num_limit)
    (hv : mapLookup frame c.key = some v) :
    (tunerUpdate s (.FeedbacksReceived frame)).1.control_loops[i]? =
      some { c with feedbacks :=
        (if c.feedbacks.length = s.graph_view_point_num_limit
          then c.feedbacks.tail else c.feedbacks) ++ [v] } ∧
    (c.feedbacks.length < s.graph_view_point_num_limit →
      ((tunerUpdate s (.FeedbacksReceived frame)).1.control_loops[i]?.map
        fun c' => c'.feedbacks) = some (c.feedbacks ++ [v])) ∧
    (c.feedbacks.length = s.graph_view_point_num_limit →
      ((tunerUpdate s (.FeedbacksReceived frame)).1.control_loops[i]?.map
        fun c' => c'.feedbacks) = some (c.feedbacks.tail ++ [v])) ∧
    (∀ c', (tunerUpdate s (.FeedbacksReceived frame)).1.control_loops[i]? = some c' →
      c'.feedbacks.length ≤ s.graph_view_point_num_limit) := by
  have hmain : (tunerUpdate s (.FeedbacksReceived frame)).1.control_loops[i]? =
      some { c with feedbacks :=
        (if c.feedbacks.length = s.graph_view_point_num_limit
          then c.feedbacks.tail else c.feedbacks) ++ [v] } := by
    simp only [tunerUpdate, List.getElem?_map, hc, Option.map_some']
    simp only [hv]
  refine ⟨hmain, ?_, ?_, ?_⟩
  · intro hlt
    rw [hmain, if_neg (Nat.ne_of_lt hlt)]
    rfl
  · intro heq
    rw [hmain, if_pos heq]
    rfl
  · intro c' hc'
    rw [hmain] at hc'
    obtain rfl : _ = c' := Option.some.inj hc'
    rcases Nat.lt_or_ge c.feedbacks.length s.graph_view_point_num_limit with h | h
    · rw [if_neg (Nat.ne_of_lt h)]
      simp only [List.length_append, List.length_cons, List.length_nil]
      omega
    · have heq := Nat.le_antisymm hlen h
      rw [if_pos heq]
      simp only [List.length_append, List.length_tail, List.length_cons, List.length_nil]
      omega

/-- Witness for C2 at a concrete input: capacity 2, history `[5, 6]` at
capacity, sample `7` arrives, the history becomes `[6, 7]`. -/
theorem feedback_history_bounded_witness :
    ((tunerUpdate
        { propeller_pwm_frequency_calibration := 0
          propellers := []
          control_loops := [{ key := "depth_lock", p := 1, i := 1, d := 1, feedbacks := [5, 6] }]
          tcp_msg_sender := false
          graph_view_point_num_limit := 2
          stopped := false }
        (TunerMsg.FeedbacksReceived [("depth_lock", 7)])).1.control_loops[0]?.map
      fun c' => c'.feedbacks) = some [6, 7] :=
  (feedback_history_bounded
    { propeller_pwm_frequency_calibration := 0
      propellers := []
      control_loops := [{ key := "depth_lock", p := 1, i := 1, d := 1, feedbacks := [5, 6] }]
      tcp_msg_sender := false
      graph_view_point_num_limit := 2
      stopped := false }
    [("depth_lock", 7)] 0 { key := "depth_lock", p := 1, i := 1, d := 1, feedbacks := [5, 6] } 7
    (by decide) rfl (by decide) rfl).2.2.1 rfl

/-! ### C3 — upload trace: header frame, 1024-byte chunks, progress -/

theorem chunkSplit_nil {α : Type} (n : Nat) : chunkSplit n ([] : List α) = [] := by
  rw [chunkSplit]

theorem chunkSplit_cons {α : Type} (n : Nat) (a : α) (rest : List α) :
    chunkSplit n (a :: rest) =
      (a :: rest.take (n - 1)) :: chunkSplit n (rest.drop (n - 1)) := by
  rw [chunkSplit]

theorem chunkSplit_append {α : Type} (n : Nat) (l₁ l₂ : List α)
    (h : l₁.length = n) (hn : 0 < n) :
    chunkSplit n (l₁ ++ l₂) = l₁ :: chunkSplit n l₂ := by
  cases l₁ with
  | nil => simp at h; omega
  | cons a rest =>
    have hr : rest.length = n - 1 := by
      simp only [List.length_cons] at h; omega
    rw [List.cons_append, chunkSplit_cons, ← hr, List.take_left, List.drop_left]

theorem chunkSplit_small {α : Type} (n : Nat) (l : List α)
    (h0 : l ≠ []) (h : l.length ≤ n) :
    chunkSplit n l = [l] := by
  cases l with
  | nil => exact absurd rfl h0
  | cons a rest =>
    have h1 : rest.length ≤ n - 1 := by
      simp only [List.length_cons] at h; omega
    rw [chunkSplit_cons, List.take_of_length_le h1, List.drop_of_length_le h1,
      chunkSplit_nil]

theorem uploadChunkLoop_allOk (env : UploadEnv) (total : Nat)
    (h : ∀ j, env.chunkOk j = true) :
    ∀ (cs : List (List Nat)) (i : Nat),
      uploadChunkLoop env total cs i =
        ⟨true, cs.map .chunk,
          (List.range' i cs.length).map fun j =>
            .FirmwareUploadProgressUpdated (((j + 1 : Nat) : ℚ) / (total : ℚ))⟩
  | [], i => by simp [uploadChunkLoop]
  | c :: cs, i => by
    rw [uploadChunkLoop, if_pos (h i), uploadChunkLoop_allOk env total h cs (i + 1)]
    simp [List.range'_succ]

/-- C3: for every uploaded byte string (in an environment where every
I/O step succeeds), the task writes the
`{firmware_update: {size, compression: "none", md5}}` header first and
then exactly the 1024-byte chunks of the payload, reporting progress
`(chunk_index + 1) / total_chunks` after each chunk; a zero-length file
yields zero chunk writes and one immediate progress report of `1.0`, and
a 2560-byte file yields exactly three chunk writes of 1024, 1024 and 512
bytes with progress `1/3`, `2/3`, `1.0` in that order. -/
theorem upload_trace_spec (md5fn : List Nat → String) :
    (∀ (path : String) (bytes : List Nat),
      runUploadTask ⟨fun _ => some bytes, md5fn, true, fun _ => true, true⟩ path =
        ⟨true,
          .header ⟨bytes.length, "none", md5fn bytes⟩ ::
            (chunkSplit 1024 bytes).map .chunk,
          if (chunkSplit 1024 bytes).length = 0 then
            [.FirmwareUploadProgressUpdated 1]
          else
            (List.range' 0 (chunkSplit 1024 bytes).length).map fun j =>
              .FirmwareUploadProgressUpdated
                (((j + 1 : Nat) : ℚ) / ((chunkSplit 1024 bytes).length : ℚ))⟩) ∧
    runUploadTask ⟨fun _ => some [], md5fn, true, fun _ => true, true⟩ "firmware.bin" =
      ⟨true, [.header ⟨0, "none", md5fn []⟩], [.FirmwareUploadProgressUpdated 1]⟩ ∧
    runUploadTask
        ⟨fun _ => some (List.replicate 2560 0), md5fn, true, fun _ => true, true⟩
        "firmware.bin" =
      ⟨true,
        [.header ⟨2560, "none", md5fn (List.replicate 2560 0)⟩,
          .chunk (List.replicate 1024 0), .chunk (List.replicate 1024 0),
          .chunk (List.replicate 512 0)],
        [.FirmwareUploadProgressUpdated (1 / 3),
          .FirmwareUploadProgressUpdated (2 / 3),
          .FirmwareUploadProgressUpdated 1]⟩ := by
  have general : ∀ (path : String) (bytes : List Nat),
      runUploadTask ⟨fun _ => some bytes, md5fn, true, fun _ => true, true⟩ path =
        ⟨true,
          .header ⟨bytes.length, "none", md5fn bytes⟩ ::
            (chunkSplit 1024 bytes).map .chunk,
          if (chunkSplit 1024 bytes).length = 0 then
            [.FirmwareUploadProgressUpdated 1]
          else
            (List.range' 0 (chunkSplit 1024 bytes).length).map fun j =>
              .FirmwareUploadProgressUpdated
                (((j + 1 : Nat) : ℚ) / ((chunkSplit 1024 bytes).length : ℚ))⟩ := by
    intro path bytes
    by_cases hcs : (chunkSplit 1024 bytes).length = 0
    · have hb : chunkSplit 1024 bytes = [] := List.length_eq_zero.mp hcs
      simp [runUploadTask, hb]
    · have hpos : 0 < (chunkSplit 1024 bytes).length := Nat.pos_of_ne_zero hcs
      have hloop := uploadChunkLoop_allOk
        ⟨fun _ => some bytes, md5fn, true, fun _ => true, true⟩
        (chunkSplit 1024 bytes).length (fun _ => rfl) (chunkSplit 1024 bytes) 0
      simp only [runUploadTask, hloop, if_pos hpos, if_neg hcs]
      simp
  refine ⟨general, ?_, ?_⟩
  · rw [general]
    simp [chunkSplit_nil]
  · have l1024 : (List.replicate 1024 (0 : Nat)).length = 1024 := by
      rw [List.length_replicate]
    have l512 : (List.replicate 512 (0 : Nat)).length = 512 := by
      rw [List.length_replicate]
    have ne512 : List.replicate 512 (0 : Nat) ≠ [] := by
      intro h
      rw [h] at l512
      simp at l512
    have h2560 : chunkSplit 1024 (List.replicate 2560 (0 : Nat)) =
        [List.replicate 1024 0, List.replicate 1024 0, List.replicate 512 0] := by
      have e1 : List.replicate 2560 (0 : Nat) =
          List.replicate 1024 0 ++ List.replicate 1536 0 := by
        rw [← List.replicate_add]
      have e2 : List.replicate 1536 (0 : Nat) =
          List.replicate 1024 0 ++ List.replicate 512 0 := by
        rw [← List.replicate_add]
      rw [e1, chunkSplit_append _ _ _ l1024 (by norm_num), e2,
        chunkSplit_append _ _ _ l1024 (by norm_num),
        chunkSplit_small _ _ ne512 (by rw [l512]; norm_num)]
    have l2560 : (List.replicate 2560 (0 : Nat)).length = 2560 := by
      rw [List.length_replicate]
    have hr : List.range' 0
        ([List.replicate 1024 (0 : Nat), List.replicate 1024 0,
          List.replicate 512 0].length) = [0, 1, 2] := rfl
    rw [general, h2560, hr]
    simp only [l2560]
    norm_num

/-! ### C4 — what guards the start-upload transition -/

/-- Counterexample to C4 as stated: with a selected path that does not
exist (`fs` returns `none` for every path), `StartUpload` is not a no-op
— the handler only checks `firmware_file_path.is_some()`, immediately
sends `NextStep` (the transition to the Uploading page) and spawns the
upload task, whose failure then surfaces as `FirmwareUploadFailed`.  The
exists-and-is-regular-file check lives only in the widget layer's button
sensitivity. -/
theorem start_upload_counterexample :
    updaterUpdate
        ⟨fun _ => none, fun _ => "", true, fun _ => true, true⟩
        ⟨1, some "firmware.bin", 0⟩ .StartUpload =
      (⟨1, some "firmware.bin", 0⟩, [.NextStep, .FirmwareUploadFailed], []) ∧
    ([UpdaterMsg.NextStep, UpdaterMsg.FirmwareUploadFailed] ≠ ([] : List UpdaterMsg)) ∧
    (updaterUpdate
        ⟨fun _ => none, fun _ => "", true, fun _ => true, true⟩
        ⟨1, some "firmware.bin", 0⟩ .NextStep).1 ≠ ⟨1, some "firmware.bin", 0⟩ :=
  ⟨rfl, by decide, by decide⟩

/-- C4 (amended: the start-upload command is a no-op exactly when no file
path is selected; whenever a path is selected — existing or not — the
handler transitions towards Uploading by sending `NextStep`; when the
selected path does not exist or cannot be read, no bytes are written and
the task failure is surfaced as `FirmwareUploadFailed`.  The
exists-and-is-regular-file precondition is enforced only by the widget
layer's upload-button sensitivity, not by the command handler). -/
theorem start_upload_guard (env : UploadEnv) (s : FirmwareUpdaterModel) :
    (s.firmware_file_path = none → updaterUpdate env s .StartUpload = (s, [], [])) ∧
    (∀ path, s.firmware_file_path = some path →
      ∃ ms, (updaterUpdate env s .StartUpload).2.1 = UpdaterMsg.NextStep :: ms) ∧
    (∀ path, s.firmware_file_path = some path → env.fs path = none →
      updaterUpdate env s .StartUpload =
        (s, [.NextStep, .FirmwareUploadFailed], [])) := by
  refine ⟨?_, ?_, ?_⟩
  · intro h
    simp [updaterUpdate, h]
  · intro path h
    simp only [updaterUpdate, h]
    exact ⟨_, rfl⟩
  · intro path h hfs
    simp [updaterUpdate, h, runUploadTask, hfs]

/-- Witness for C4 at concrete inputs: no path selected (no-op), and a
selected but nonexistent path (transition plus surfaced failure). -/
theorem start_upload_guard_witness :
    updaterUpdate ⟨fun _ => none, fun _ => "", true, fun _ => true, true⟩
        ⟨0, none, 0⟩ .StartUpload = (⟨0, none, 0⟩, [], []) ∧
    updaterUpdate ⟨fun _ => none, fun _ => "", true, fun _ => true, true⟩
        ⟨0, some "a.bin", 0⟩ .StartUpload =
      (⟨0, some "a.bin", 0⟩, [.NextStep, .FirmwareUploadFailed], []) :=
  ⟨(start_upload_guard ⟨fun _ => none, fun _ => "", true, fun _ => true, true⟩
      ⟨0, none, 0⟩).1 rfl,
    (start_upload_guard ⟨fun _ => none, fun _ => "", true, fun _ => true, true⟩
      ⟨0, some "a.bin", 0⟩).2.2 "a.bin" rfl rfl⟩

/-! ### C5 — upload failures are bridged to progress −1.0, never a hang -/

theorem uploadChunkLoop_ok_iff (env : UploadEnv) (total : Nat) :
    ∀ (cs : List (List Nat)) (i : Nat),
      (uploadChunkLoop env total cs i).ok = true ↔
        ∀ j, j < cs.length → env.chunkOk (i + j) = true
  | [], i => by simp [uploadChunkLoop]
  | c :: cs, i => by
    rw [uploadChunkLoop]
    by_cases h : env.chunkOk i = true
    · rw [if_pos h]
      simp only [List.length_cons]
      rw [uploadChunkLoop_ok_iff env total cs (i + 1)]
      constructor
      · intro hall j hj
        cases j with
        | zero => simpa using h
        | succ j =>
          have := hall j (by omega)
          simpa [Nat.add_assoc, Nat.add_comm 1 j] using this
      · intro hall j hj
        have := hall (j + 1) (by omega)
        simpa [Nat.add_assoc, Nat.add_comm 1 j] using this
    · rw [if_neg h]
      simp only [List.length_cons]
      constructor
      · intro hfalse
        exact absurd hfalse (by simp)
      · intro hall
        exact absurd (by simpa using hall 0 (by omega)) h

/-- C5: (a) whenever the upload task returns `Err` — and with a readable
file it does so exactly when the header write, some chunk write, or the
final flush fails, while an unreadable/nonexistent file always does — the
supervising wrapper appends a `FirmwareUploadFailed` event after the
task's own messages; (b) the session converts `FirmwareUploadFailed` into
a progress update of exactly `-1.0`; (c) any progress report below `0.0`
(like any at `1.0` or above) sends `NextStep`, driving the pipeline into
its terminal page — so no upload failure is observed only as a hang. -/
theorem upload_failure_bridging (env : UploadEnv) (s : FirmwareUpdaterModel) :
    (∀ path, s.firmware_file_path = some path →
      (runUploadTask env path).ok = false →
      (updaterUpdate env s .StartUpload).2.1 =
        UpdaterMsg.NextStep :: ((runUploadTask env path).msgs ++ [.FirmwareUploadFailed])) ∧
    (∀ path bytes, env.fs path = some bytes →
      ((runUploadTask env path).ok = false ↔
        env.headerOk = false ∨
        (∃ j, j < (chunkSplit 1024 bytes).length ∧ env.chunkOk j = false) ∨
        ((chunkSplit 1024 bytes).length ≠ 0 ∧ env.flushOk = false))) ∧
    (∀ path, env.fs path = none → (runUploadTask env path).ok = false) ∧
    (updaterUpdate env s .FirmwareUploadFailed =
      (s, [.FirmwareUploadProgressUpdated (-1)], [])) ∧
    (∀ q : ℚ, q < 0 →
      updaterUpdate env s (.FirmwareUploadProgressUpdated q) =
        ({ s with firmware_uploading_progress := q }, [.NextStep], [])) := by
  refine ⟨?_, ?_, ?_, rfl, ?_⟩
  · intro path h hfail
    simp only [updaterUpdate, h, hfail]
    simp [hfail]
  · intro path bytes hfs
    rw [runUploadTask, hfs]
    simp only
    by_cases hh : env.headerOk = true
    · rw [if_pos hh]
      by_cases hn : 0 < (chunkSplit 1024 bytes).length
      · rw [if_pos hn]
        by_cases hloop : (uploadChunkLoop env (chunkSplit 1024 bytes).length
            (chunkSplit 1024 bytes) 0).ok = true
        · rw [if_pos hloop]
          have hall := (uploadChunkLoop_ok_iff env _ _ 0).mp hloop
          simp only [UploadRun.mk.injEq]
          constructor
          · intro hflush
            exact Or.inr (Or.inr ⟨by omega, by simpa using hflush⟩)
          · intro hor
            rcases hor with h1 | ⟨j, hj, hjf⟩ | ⟨_, h3⟩
            · rw [hh] at h1; exact absurd h1 (by simp)
            · have := hall j hj
              rw [Nat.zero_add] at this
              rw [this] at hjf
              exact absurd hjf (by simp)
            · simpa using h3
        · rw [if_neg hloop]
          simp only [UploadRun.mk.injEq]
          constructor
          · intro _
            rw [uploadChunkLoop_ok_iff env _ _ 0] at hloop
            push_neg at hloop
            obtain ⟨j, hj, hjf⟩ := hloop
            rw [Nat.zero_add] at hjf
            exact Or.inr (Or.inl ⟨j, hj, by simpa using hjf⟩)
          · intro _
            trivial
      · rw [if_neg hn]
        simp only [UploadRun.mk.injEq]
        constructor
        · intro htrue
          exact absurd htrue (by simp)
        · intro hor
          rcases hor with h1 | ⟨j, hj, _⟩ | ⟨h2, _⟩
          · rw [hh] at h1; exact absurd h1 (by simp)
          · omega
          · omega
    · rw [if_neg hh]
      simp only [UploadRun.mk.injEq]
      refine ⟨fun _ => Or.inl ?_, fun _ => trivial⟩
      cases henv : env.headerOk with
      | false => rfl
      | true => exact absurd henv hh
  · intro path hfs
    rw [runUploadTask, hfs]
  · intro q hq
    have : (1 ≤ q ∨ q < 0) = True := by simp [hq]
    simp [updaterUpdate, this]

/-- Witness for C5 at a concrete input: a chunk write fails (second chunk
of a 2048-byte file), the task errs, the wrapper surfaces the failure,
and the progress sentinel drives the terminal transition. -/
theorem upload_failure_bridging_witness :
    (runUploadTask
        ⟨fun _ => some (List.replicate 2048 0), fun _ => "", true,
          fun j => decide (j ≠ 1), true⟩ "a.bin").ok = false ∧
    updaterUpdate
        ⟨fun _ => some (List.replicate 2048 0), fun _ => "", true,
          fun j => decide (j ≠ 1), true⟩ ⟨2, some "a.bin", 0⟩ .FirmwareUploadFailed =
      (⟨2, some "a.bin", 0⟩, [.FirmwareUploadProgressUpdated (-1)], []) ∧
    updaterUpdate
        ⟨fun _ => some (List.replicate 2048 0), fun _ => "", true,
          fun j => decide (j ≠ 1), true⟩ ⟨2, some "a.bin", 0⟩
        (.FirmwareUploadProgressUpdated (-1)) =
      (⟨2, some "a.bin", (-1 : ℚ)⟩, [.NextStep], []) := by
  have henv := upload_failure_bridging
    ⟨fun _ => some (List.replicate 2048 0), fun _ => "", true,
      fun j => decide (j ≠ 1), true⟩ ⟨2, some "a.bin", 0⟩
  refine ⟨?_, henv.2.2.2.1, ?_⟩
  · have hlen : (chunkSplit 1024 (List.replicate 2048 (0 : Nat))).length = 2 := by
      have l1024 : (List.replicate 1024 (0 : Nat)).length = 1024 := by
        rw [List.length_replicate]
      have e1 : List.replicate 2048 (0 : Nat) =
          List.replicate 1024 0 ++ List.replicate 1024 0 := by
        rw [← List.replicate_add]
      have ne1024 : List.replicate 1024 (0 : Nat) ≠ [] := by
        intro h
        rw [h] at l1024
        simp at l1024
      rw [e1, chunkSplit_append _ _ _ l1024 (by norm_num),
        chunkSplit_small _ _ ne1024 (by rw [l1024])]
      rfl
    exact (henv.2.1 "a.bin" (List.replicate 2048 0) rfl).mpr
      (Or.inr (Or.inl ⟨1, by omega, by decide⟩))
  · exact henv.2.2.2.2 (-1) (by norm_num)

/-! ### C6 — receiver frame classification -/

/-- C6: for every chunk the receive loop reads, with `seg` the bytes
before the first NUL: (a) invalid UTF-8 is skipped silently and the loop
continues; (b) a decoded empty string enqueues `ConnectionLost` and
stops; (c) a non-empty string parsing as a feedback frame surfaces
`FeedbacksReceived` and the loop continues; (d) one failing as feedback
but parsing as parameters surfaces `ParametersReceived` and continues;
(e) one parsing as neither is dropped as a non-fatal protocol error and
the loop continues. -/
theorem receiver_chunk_classification (d : Decoders) (buf : List Nat)
    (rest : List (Option (List Nat))) :
    (d.utf8 (buf.takeWhile fun b => b != 0) = none →
      receiveLoop d (some buf :: rest) = receiveLoop d rest) ∧
    (d.utf8 (buf.takeWhile fun b => b != 0) = some "" →
      receiveLoop d (some buf :: rest) = ([], [TcpCmd.ConnectionLost])) ∧
    (∀ s m, d.utf8 (buf.takeWhile fun b => b != 0) = some s → s ≠ "" →
      d.parseFeedback s = some m →
      receiveLoop d (some buf :: rest) =
        (TunerMsg.FeedbacksReceived m :: (receiveLoop d rest).1,
          (receiveLoop d rest).2)) ∧
    (∀ s p, d.utf8 (buf.takeWhile fun b => b != 0) = some s → s ≠ "" →
      d.parseFeedback s = none → d.parseParams s = some p →
      receiveLoop d (some buf :: rest) =
        (TunerMsg.ParametersReceived p.cal p.props p.cls :: (receiveLoop d rest).1,
          (receiveLoop d rest).2)) ∧
    (∀ s, d.utf8 (buf.takeWhile fun b => b != 0) = some s → s ≠ "" →
      d.parseFeedback s = none → d.parseParams s = none →
      receiveLoop d (some buf :: rest) = receiveLoop d rest) := by
  refine ⟨?_, ?_, ?_, ?_, ?_⟩
  · intro h
    have hc : receiveChunk d buf = .skip := by
      simp only [receiveChunk, h]
    simp only [receiveLoop, hc]
  · intro h
    have hc : receiveChunk d buf = .connectionLost := by
      simp [receiveChunk, h]
    simp only [receiveLoop, hc]
  · intro s m hs hne hf
    have hc : receiveChunk d buf = .feedback m := by
      simp only [receiveChunk, hs, if_neg hne, hf]
    simp only [receiveLoop, hc]
  · intro s p hs hne hf hp
    have hc : receiveChunk d buf = .params p := by
      simp only [receiveChunk, hs, if_neg hne, hf, hp]
    simp only [receiveLoop, hc]
  · intro s hs hne hf hp
    have hc : receiveChunk d buf = .protocolError := by
      simp only [receiveChunk, hs, if_neg hne, hf, hp]
    simp only [receiveLoop, hc]

/-- Witness for C6 at concrete inputs: a chunk decoding to a feedback
frame followed by a chunk decoding to the empty string (remote close). -/
theorem receiver_chunk_classification_witness :
    receiveLoop
        ⟨fun l => if l = [] then some "" else if l = [1] then none else some "x",
          fun s => if s = "x" then some [("depth_lock", 1)] else none,
          fun _ => none⟩
        [some [120], some []] =
      ([TunerMsg.FeedbacksReceived [("depth_lock", 1)]], [TcpCmd.ConnectionLost]) :=
  (receiver_chunk_classification
      ⟨fun l => if l = [] then some "" else if l = [1] then none else some "x",
        fun s => if s = "x" then some [("depth_lock", 1)] else none,
        fun _ => none⟩
      [120] [some []]).2.2.1 "x" [("depth_lock", 1)] rfl (by decide) rfl

/-! ### C7 — the coalescer sends one frame with the latest value per key -/

theorem mapLookup_mapInsert {α : Type} (k k' : String) (v : α) :
    ∀ m : List (String × α),
      mapLookup (mapInsert m k v) k' = if k = k' then some v else mapLookup m k'
  | [] => by simp [mapInsert, mapLookup]
  | e :: m => by
    by_cases h : e.1 = k
    · by_cases h' : k = k'
      · simp [mapInsert, mapLookup, h, h']
      · have : ¬(e.1 = k') := by rw [h]; exact h'
        simp [mapInsert, mapLookup, h, h', this]
    · by_cases h'' : e.1 = k'
      · have h2 : ¬(k = k') := fun hk => h (hk ▸ h'')
        have h3 : ¬(k' = k) := fun hk => h2 hk.symm
        simp [mapInsert, mapLookup, h, h'', h2, h3]
      · simp [mapInsert, mapLookup, h, h'', mapLookup_mapInsert k k' v m]

theorem mapInsert_ne_nil {α : Type} (k : String) (v : α) :
    ∀ m : List (String × α), mapInsert m k v ≠ []
  | [] => by simp [mapInsert]
  | e :: m => by
    by_cases h : e.1 = k <;> simp [mapInsert, h]

theorem foldl_mapInsert_ne_nil :
    ∀ (es : List (String × Int)) (m : List (String × Int)), m ≠ [] →
      es.foldl (fun acc e => mapInsert acc e.1 e.2) m ≠ []
  | [], _, h => h
  | e :: es, m, _h =>
    foldl_mapInsert_ne_nil es (mapInsert m e.1 e.2) (mapInsert_ne_nil e.1 e.2 m)

/-- Modelled from the spec's words "the latest value per key": the value
of the last edit in the list whose key is `k`, used to compare the
accumulated preview map against the specification. -/
def latestValue (k : String) : List (String × Int) → Option Int
  | [] => none
  | e :: es =>
    match latestValue k es with
    | some v => some v
    | none => if e.1 = k then some e.2 else none

theorem mapLookup_foldl_mapInsert (k : String) :
    ∀ (edits : List (String × Int)) (m : List (String × Int)),
      mapLookup (edits.foldl (fun acc e => mapInsert acc e.1 e.2) m) k =
        match latestValue k edits with
        | some v => some v
        | none => mapLookup m k
  | [], m => by simp [latestValue]
  | e :: es, m => by
    simp only [List.foldl_cons, mapLookup_foldl_mapInsert k es]
    cases hles : latestValue k es with
    | some v => simp [latestValue, hles]
    | none =>
      simp only [latestValue, hles, mapLookup_mapInsert]
      by_cases h : e.1 = k
      · simp [h]
      · simp [h]

/-- C7: (a) a coalescer tick on a non-empty propeller preview map swaps
it for an empty map and emits exactly one `PreviewPropellers` command
carrying the swapped-out contents; (b) the same, independently, for the
control-loop map; (c) a buffered `PreviewPropeller` edit is an insert
keyed by propeller identity; (d) folding any sequence of edits into the
(initially empty) map leaves, at every key, exactly the latest edited
value, and (e) a non-empty edit sequence leaves a non-empty map (hence by
(a) exactly one frame carrying the latest value per key is sent on the
next tick). -/
theorem coalescer_tick_spec :
    (∀ st : SharedState, st.preview_propellers_value ≠ [] →
      (coalescerTick st).1.preview_propellers_value = [] ∧
      ((coalescerTick st).2.filter fun c => match c with
        | TcpCmd.PreviewPropellers _ => true
        | _ => false) = [TcpCmd.PreviewPropellers st.preview_propellers_value]) ∧
    (∀ st : SharedState, st.preview_control_loops ≠ [] →
      (coalescerTick st).1.preview_control_loops = [] ∧
      ((coalescerTick st).2.filter fun c => match c with
        | TcpCmd.PreviewControlLoops _ => true
        | _ => false) = [TcpCmd.PreviewControlLoops st.preview_control_loops]) ∧
    (∀ (now : Nat) (k : String) (v : Int) (st : SharedState),
      (previewPropellerInsert now k v st).preview_propellers_value =
        mapInsert st.preview_propellers_value k v) ∧
    (∀ (edits : List (String × Int)) (k : String),
      mapLookup (edits.foldl (fun acc e => mapInsert acc e.1 e.2) []) k =
        latestValue k edits) ∧
    (∀ edits : List (String × Int), edits ≠ [] →
      edits.foldl (fun acc e => mapInsert acc e.1 e.2) [] ≠ []) := by
  refine ⟨?_, ?_, fun _ _ _ _ => rfl, ?_, ?_⟩
  · intro st h
    have hne : st.preview_propellers_value.isEmpty = false := by
      cases hv : st.preview_propellers_value with
      | nil => exact absurd hv h
      | cons a l => rfl
    by_cases h2 : st.preview_control_loops.isEmpty = true <;>
      simp [coalescerTick, hne, h2, List.filter]
  · intro st h
    have hne : st.preview_control_loops.isEmpty = false := by
      cases hv : st.preview_control_loops with
      | nil => exact absurd hv h
      | cons a l => rfl
    by_cases h2 : st.preview_propellers_value.isEmpty = true <;>
      simp [coalescerTick, hne, h2, List.filter]
  · intro edits k
    rw [mapLookup_foldl_mapInsert]
    cases latestValue k edits with
    | some v => rfl
    | none => rfl
  · intro edits h
    cases edits with
    | nil => exact absurd rfl h
    | cons e es =>
      exact foldl_mapInsert_ne_nil es _ (mapInsert_ne_nil e.1 e.2 [])

/-- Witness for C7 at a concrete input: three edits, two on the same key
within one tick window; the tick emits one frame carrying the latest
value per key. -/
theorem coalescer_tick_spec_witness :
    ((coalescerTick ⟨some 0, [("front_left", 7), ("back_left", 3)], []⟩).2.filter
      fun c => match c with
      | TcpCmd.PreviewPropellers _ => true
      | _ => false) = [TcpCmd.PreviewPropellers [("front_left", 7), ("back_left", 3)]] ∧
    mapLookup
        ([(("front_left" : String), (2 : Int)), ("back_left", 3), ("front_left", 7)].foldl
          (fun acc e => mapInsert acc e.1 e.2) []) "front_left" =
      latestValue "front_left" [("front_left", 2), ("back_left", 3), ("front_left", 7)] :=
  ⟨(coalescer_tick_spec.1 ⟨some 0, [("front_left", 7), ("back_left", 3)], []⟩
      (by decide)).2,
    coalescer_tick_spec.2.2.2.1 [("front_left", 2), ("back_left", 3), ("front_left", 7)]
      "front_left"⟩

/-! ### C8 — the safety timer's revert condition -/

/-- Counterexample to C8 as stated: at exactly 1000 ms elapsed
(timestamp 0, now 1000) the claim says "1000 ms or less have elapsed", so
no command should be enqueued and the timestamp should be unchanged — but
the code's condition is `current_millis() - millis >= PREVIEW_TIME_MILLIS`,
so it fires at exactly 1000 ms: one neutral frame is enqueued and the
timestamp is cleared. -/
theorem safety_timer_boundary_counterexample :
    timerStep 1000 ⟨some 0, [], []⟩ =
      (⟨none, [], []⟩, [TcpCmd.PreviewPropellers neutralFrame]) ∧
    1000 - 0 ≤ PREVIEW_TIME_MILLIS ∧
    timerStep 1000 ⟨some 0, [], []⟩ ≠ (⟨some 0, [], []⟩, []) :=
  ⟨rfl, by decide, by decide⟩

/-- C8 (amended: the threshold is inclusive — the timer fires when at
least 1000 ms have elapsed, not only when strictly more have): on a wake
of the safety-timer loop, if the timestamp is set and at least
`PREVIEW_TIME_MILLIS = 1000` ms have elapsed, exactly one
`PreviewPropellers` command mapping every known propeller identity to 0
is enqueued and the timestamp is cleared; if the timestamp is unset, or
less than 1000 ms have elapsed, no command is enqueued and the state is
unchanged. -/
theorem safety_timer_spec (now : Nat) (st : SharedState) :
    (st.last_propeller_preview_timestamp = none → timerStep now st = (st, [])) ∧
    (∀ millis, st.last_propeller_preview_timestamp = some millis →
      now - millis < PREVIEW_TIME_MILLIS → timerStep now st = (st, [])) ∧
    (∀ millis, st.last_propeller_preview_timestamp = some millis →
      PREVIEW_TIME_MILLIS ≤ now - millis →
      timerStep now st =
        ({ st with last_propeller_preview_timestamp := none },
          [TcpCmd.PreviewPropellers neutralFrame]) ∧
      neutralFrame = DEFAULT_PROPELLERS.map fun k => (k, 0)) := by
  refine ⟨?_, ?_, ?_⟩
  · intro h
    simp [timerStep, h]
  · intro millis h hlt
    simp [timerStep, h, Nat.not_le.mpr hlt]
  · intro millis h hle
    exact ⟨by simp [timerStep, h, hle], rfl⟩

/-- Witness for C8 at concrete inputs: an unset timestamp is a no-op, a
fresh timestamp (500 ms elapsed) is a no-op, and 1500 ms elapsed fires
the neutral frame and clears the timestamp. -/
theorem safety_timer_spec_witness :
    timerStep 500 ⟨none, [], []⟩ = (⟨none, [], []⟩, []) ∧
    timerStep 500 ⟨some 0, [], []⟩ = (⟨some 0, [], []⟩, []) ∧
    timerStep 1500 ⟨some 0, [], []⟩ =
      (⟨none, [], []⟩, [TcpCmd.PreviewPropellers neutralFrame]) :=
  ⟨(safety_timer_spec 500 ⟨none, [], []⟩).1 rfl,
    (safety_timer_spec 500 ⟨some 0, [], []⟩).2.1 0 rfl (by decide),
    ((safety_timer_spec 1500 ⟨some 0, [], []⟩).2.2 0 rfl (by decide)).1⟩

/-! ### C9 — which writer-loop stream failures are fatal -/

/-- Counterexample to C9 as stated: an environment where exactly the
third stream operation of the `UploadParameters` branch — the write of
the save-request frame — fails, while every other operation succeeds.
The claim says this failure is fatal; the code wraps precisely this write
in `.unwrap_or_default()`, so the command completes with `Ok` and the
session is not terminated. -/
theorem save_write_failure_counterexample :
    (fun i => decide (i ≠ 2)) 2 = false ∧
    runTcpCmd (fun i => decide (i ≠ 2)) 0 (TcpCmd.UploadParameters 0 [] []) =
      Except.ok 4 :=
  ⟨by decide, rfl⟩

/-- C9 (amended: every write or flush failure of the writer loop's
stream-writing commands terminates the session with an error, with one
exception — the write of the save-request frame following an
`UploadParameters` command is silently ignored (`unwrap_or_default`),
though the flush after it is still fatal): the outcome of each
stream-writing command is `Ok` exactly when its non-ignored operations
all succeed, and the outcome of `UploadParameters` does not depend on the
save-request write's outcome at all. -/
theorem writer_error_propagation (ok : Nat → Bool) (n : Nat) (cal : ℚ)
    (props : List (String × Propeller)) (cls : List (String × ControlLoop))
    (b : Bool) (pm : List (String × Int)) (cm : List (String × ControlLoop)) :
    ((runTcpCmd ok n TcpCmd.RequestParameters).isOk = (ok n && ok (n + 1))) ∧
    ((runTcpCmd ok n (TcpCmd.SetDebugModeEnabled b)).isOk = (ok n && ok (n + 1))) ∧
    ((runTcpCmd ok n (TcpCmd.PreviewPropellers pm)).isOk = (ok n && ok (n + 1))) ∧
    ((runTcpCmd ok n (TcpCmd.PreviewControlLoops cm)).isOk = (ok n && ok (n + 1))) ∧
    ((runTcpCmd ok n (TcpCmd.UploadParameters cal props cls)).isOk =
      (ok n && ok (n + 1) && ok (n + 3))) ∧
    (∀ ok' : Nat → Bool, (∀ j, j ≠ n + 2 → ok j = ok' j) →
      runTcpCmd ok n (TcpCmd.UploadParameters cal props cls) =
        runTcpCmd ok' n (TcpCmd.UploadParameters cal props cls)) := by
  refine ⟨?_, ?_, ?_, ?_, ?_, ?_⟩
  · cases h0 : ok n <;> cases h1 : ok (n + 1) <;>
      simp [runTcpCmd, h0, h1, Except.isOk, Except.toBool]
  · cases h0 : ok n <;> cases h1 : ok (n + 1) <;>
      simp [runTcpCmd, h0, h1, Except.isOk, Except.toBool]
  · cases h0 : ok n <;> cases h1 : ok (n + 1) <;>
      simp [runTcpCmd, h0, h1, Except.isOk, Except.toBool]
  · cases h0 : ok n <;> cases h1 : ok (n + 1) <;>
      simp [runTcpCmd, h0, h1, Except.isOk, Except.toBool]
  · cases h0 : ok n <;> cases h1 : ok (n + 1) <;> cases h3 : ok (n + 3) <;>
      simp [runTcpCmd, h0, h1, h3, Except.isOk, Except.toBool]
  · intro ok' hagree
    have e0 := hagree n (by omega)
    have e1 := hagree (n + 1) (by omega)
    have e3 := hagree (n + 3) (by omega)
    simp only [runTcpCmd, e0, e1, e3]

/-- Witness for C9 at a concrete input: the environment failing only the
save-request write behaves exactly like the all-success environment. -/
theorem writer_error_propagation_witness :
    runTcpCmd (fun i => decide (i ≠ 2)) 0 (TcpCmd.UploadParameters 0 [] []) =
      runTcpCmd (fun _ => true) 0 (TcpCmd.UploadParameters 0 [] []) :=
  (writer_error_propagation (fun i => decide (i ≠ 2)) 0 0 [] [] false [] []).2.2.2.2.2
    (fun _ => true) (fun _ hj => decide_eq_true hj)

/-! ### C10 — the propeller / control-loop identity set is fixed -/

theorem map_eq_of_mem {α β : Type} (f g : α → β) :
    ∀ l : List α, (∀ a ∈ l, f a = g a) → l.map f = l.map g
  | [], _ => rfl
  | a :: l, h => by
    simp only [List.map_cons, h a (List.mem_cons_self a l)]
    rw [map_eq_of_mem f g l fun x hx => h x (List.mem_cons_of_mem a hx)]

/-- C10: (a) at construction the propeller keys are exactly
`DEFAULT_PROPELLERS` and the control-loop keys exactly
`DEFAULT_CONTROL_LOOPS`; (b) no operation of the update function grows,
shrinks or rekeys either collection; (c,d,e) an inbound parameters or
feedback frame leaves every entry whose key is absent from the frame
unchanged; (f,g) two frames agreeing on the keys of the collections
produce identical updates, so frame keys outside the fixed set are
silently ignored. -/
theorem identity_set_fixed :
    (∀ limit : Nat,
      (((tunerNew limit).propellers.map fun p => p.key) = DEFAULT_PROPELLERS) ∧
      (((tunerNew limit).control_loops.map fun c => c.key) = DEFAULT_CONTROL_LOOPS)) ∧
    (∀ (s : TunerModel) (msg : TunerMsg),
      (((tunerUpdate s msg).1.propellers.map fun p => p.key) =
        s.propellers.map fun p => p.key) ∧
      (((tunerUpdate s msg).1.control_loops.map fun c => c.key) =
        s.control_loops.map fun c => c.key)) ∧
    (∀ (s : TunerModel) (cal : ℚ) (props : List (String × Propeller))
      (cls : List (String × ControlLoop)) (i : Nat) (p : PropellerModel),
      s.propellers[i]? = some p →
      mapLookup props p.key = none →
      (tunerUpdate s (.ParametersReceived cal props cls)).1.propellers[i]? = some p) ∧
    (∀ (s : TunerModel) (cal : ℚ) (props : List (String × Propeller))
      (cls : List (String × ControlLoop)) (i : Nat) (c : ControlLoopModel),
      s.control_loops[i]? = some c →
      mapLookup cls c.key = none →
      (tunerUpdate s (.ParametersReceived cal props cls)).1.control_loops[i]? = some c) ∧
    (∀ (s : TunerModel) (frame : List (String × ℚ)) (i : Nat) (c : ControlLoopModel),
      s.control_loops[i]? = some c →
      mapLookup frame c.key = none →
      (tunerUpdate s (.FeedbacksReceived frame)).1.control_loops[i]? = some c) ∧
    (∀ s cal props props' cls cls',
      (∀ p ∈ s.propellers, mapLookup props p.key = mapLookup props' p.key) →
      (∀ c ∈ s.control_loops, mapLookup cls c.key = mapLookup cls' c.key) →
      tunerUpdate s (.ParametersReceived cal props cls) =
        tunerUpdate s (.ParametersReceived cal props' cls')) ∧
    (∀ s frame frame',
      (∀ c ∈ s.control_loops, mapLookup frame c.key = mapLookup frame' c.key) →
      tunerUpdate s (.FeedbacksReceived frame) =
        tunerUpdate s (.FeedbacksReceived frame')) := by
  refine ⟨fun _ => ⟨rfl, rfl⟩, ?_, ?_, ?_, ?_, ?_, ?_⟩
  · intro s msg
    cases msg with
    | SetPropellerLowerDeadzone index value =>
      exact ⟨map_modifyIdx (fun p => p.key)
        (fun p => { p with
          deadzone_lower := value
          deadzone_upper := max p.deadzone_upper value })
        (fun a => rfl) index s.propellers, rfl⟩
    | SetPropellerUpperDeadzone index value =>
      exact ⟨map_modifyIdx (fun p => p.key)
        (fun p => { p with
          deadzone_upper := value
          deadzone_lower := min p.deadzone_lower value })
        (fun a => rfl) index s.propellers, rfl⟩
    | SetPropellerPowerPositive index value =>
      exact ⟨map_modifyIdx (fun p => p.key)
        (fun p => { p with power_positive := value })
        (fun a => rfl) index s.propellers, rfl⟩
    | SetPropellerPowerNegative index value =>
      exact ⟨map_modifyIdx (fun p => p.key)
        (fun p => { p with power_negative := value })
        (fun a => rfl) index s.propellers, rfl⟩
    | SetPropellerReversed index value =>
      exact ⟨map_modifyIdx (fun p => p.key)
        (fun p => { p with reversed := value })
        (fun a => rfl) index s.propellers, rfl⟩
    | SetPropellerEnabled index value =>
      exact ⟨map_modifyIdx (fun p => p.key)
        (fun p => { p with enabled := value })
        (fun a => rfl) index s.propellers, rfl⟩
    | SetP index value =>
      exact ⟨rfl, map_modifyIdx (fun c => c.key)
        (fun c => { c with p := value }) (fun a => rfl) index s.control_loops⟩
    | SetI index value =>
      exact ⟨rfl, map_modifyIdx (fun c => c.key)
        (fun c => { c with i := value }) (fun a => rfl) index s.control_loops⟩
    | SetD index value =>
      exact ⟨rfl, map_modifyIdx (fun c => c.key)
        (fun c => { c with d := value }) (fun a => rfl) index s.control_loops⟩
    | SetPropellerPwmFreqCalibration value => exact ⟨rfl, rfl⟩
    | ResetParameters => exact ⟨rfl, rfl⟩
    | ApplyParameters => exact ⟨rfl, rfl⟩
    | StartDebug => exact ⟨rfl, rfl⟩
    | StopDebug =>
      cases h : s.tcp_msg_sender with
      | true => constructor <;> simp [tunerUpdate, h]
      | false => constructor <;> simp [tunerUpdate, h]
    | FeedbacksReceived frame =>
      exact ⟨rfl, map_map_eq_map _ _
        (fun a => by cases mapLookup frame a.key <;> rfl) s.control_loops⟩
    | ParametersReceived cal props cls =>
      exact ⟨map_map_eq_map _ _
          (fun a => by cases mapLookup props a.key <;> rfl) s.propellers,
        map_map_eq_map _ _
          (fun a => by cases mapLookup cls a.key <;> rfl) s.control_loops⟩
  · intro s cal props cls i p hp hlook
    simp only [tunerUpdate, List.getElem?_map, hp, Option.map_some', hlook]
  · intro s cal props cls i c hc hlook
    simp only [tunerUpdate, List.getElem?_map, hc, Option.map_some', hlook]
  · intro s frame i c hc hlook
    simp only [tunerUpdate, List.getElem?_map, hc, Option.map_some', hlook]
  · intro s cal props props' cls cls' hP hC
    have hp : (s.propellers.map fun m =>
        match mapLookup props m.key with
        | some pr =>
          { m with
              deadzone_lower := min pr.deadzone_lower pr.deadzone_upper
              deadzone_upper := max pr.deadzone_upper pr.deadzone_lower
              power_positive := pr.power_positive
              power_negative := pr.power_negative
              reversed := pr.reversed
              enabled := pr.enabled }
        | none => m) = s.propellers.map fun m =>
        match mapLookup props' m.key with
        | some pr =>
          { m with
              deadzone_lower := min pr.deadzone_lower pr.deadzone_upper
              deadzone_upper := max pr.deadzone_upper pr.deadzone_lower
              power_positive := pr.power_positive
              power_negative := pr.power_negative
              reversed := pr.reversed
              enabled := pr.enabled }
        | none => m :=
      map_eq_of_mem _ _ s.propellers fun a ha => by rw [hP a ha]
    have hc : (s.control_loops.map fun c =>
        match mapLookup cls c.key with
        | some cl => { c with p := cl.p, i := cl.i, d := cl.d }
        | none => c) = s.control_loops.map fun c =>
        match mapLookup cls' c.key with
        | some cl => { c with p := cl.p, i := cl.i, d := cl.d }
        | none => c :=
      map_eq_of_mem _ _ s.control_loops fun a ha => by rw [hC a ha]
    simp only [tunerUpdate, hp, hc]
  · intro s frame frame' hC
    have hc : (s.control_loops.map fun c =>
        match mapLookup frame c.key with
        | some v =>
          { c with feedbacks :=
              (if c.feedbacks.length = s.graph_view_point_num_limit
                then c.feedbacks.tail else c.feedbacks) ++ [v] }
        | none => c) = s.control_loops.map fun c =>
        match mapLookup frame' c.key with
        | some v =>
          { c with feedbacks :=
              (if c.feedbacks.length = s.graph_view_point_num_limit
                then c.feedbacks.tail else c.feedbacks) ++ [v] }
        | none => c :=
      map_eq_of_mem _ _ s.control_loops fun a ha => by rw [hC a ha]
    simp only [tunerUpdate, hc]

/-- Witness for C10 at a concrete input: a parameters frame carrying only
an unknown key leaves propeller 0 of the fresh model unchanged. -/
theorem identity_set_fixed_witness :
    (tunerUpdate (tunerNew 5)
        (TunerMsg.ParametersReceived 0
          [("unknown_key", ⟨1, 2, 0, 0, false, true⟩)] [])).1.propellers[0]? =
      some (PropellerModel.new "front_left") :=
  identity_set_fixed.2.2.1 (tunerNew 5) 0
    [("unknown_key", ⟨1, 2, 0, 0, false, true⟩)] [] 0
    (PropellerModel.new "front_left") rfl rfl

end RovHost
